import Mathlib

/-!
# Verification of `scripts/generate-miner-icons.py`

A shallow embedding of the miner-icon generator:

* `parse_miners` — the regex-based scrape of miner records (tier, name,
  rarity) from the game database text, followed by a stable ascending
  sort on tier (Python's `sorted` with `key=tier` is stable).
* `draw_icon` — the deterministic 16×16 pixel-art renderer, colour-themed
  by rarity, upscaled 8× (nearest-neighbour) to 128×128.
* `runEvents` — the orchestration of `main` as the sequence of file-write
  events it performs (icon writes in record order, then the manifest).

Pixels are RGBA quadruples; an image is a list of rows, each a list of
colours, mirroring PIL's raster with `draw.rectangle([x, y, x, y])`
single-pixel fills modelled as in-place pixel assignment.
-/

/-- An RGBA colour, one byte per channel (PIL "RGBA" mode pixel). -/
structure Color where
  r : Nat
  g : Nat
  b : Nat
  a : Nat
deriving DecidableEq, Repr

/-- A raster image: a list of rows (index `y`), each row a list of
pixel colours (index `x`). -/
abbrev Img := List (List Color)

/-- The fully transparent pixel `(0, 0, 0, 0)` used by
`Image.new("RGBA", (GRID, GRID), (0, 0, 0, 0))`. -/
def transparent : Color := ⟨0, 0, 0, 0⟩

/-- Constant `SCALE = 8  # 16x16 -> 128x128` (line 13). -/
def SCALE : Nat := 8

/-- Constant `GRID = 16` (line 14). -/
def GRID : Nat := 16

/-- PIL `Image.new("RGBA", (w, h), c)`: a `w × h` raster filled with `c`. -/
def newImage (w h : Nat) (c : Color) : Img :=
  List.replicate h (List.replicate w c)

/-- Read the pixel at column `x` of row `y` (out-of-range reads give the
transparent default; all accesses in this development are in range). -/
def getPixel (img : Img) (x y : Nat) : Color :=
  (img.getD y []).getD x transparent

/-- Function `draw_pixel(draw, x, y, color)` (line 40): a one-pixel rectangle fill,
i.e. assignment of colour `c` to pixel `(x, y)`. -/
def draw_pixel (img : Img) (x y : Nat) (c : Color) : Img :=
  img.set y ((img.getD y []).set x c)

/-- The palette pair of rarity "Common": `("#b0b0b0", "#7a7a7a")`. -/
def commonPair : Color × Color :=
  (⟨0xb0, 0xb0, 0xb0, 0xff⟩, ⟨0x7a, 0x7a, 0x7a, 0xff⟩)

/-- Table `RARITY_COLORS` (lines 16–23): rarity name ↦ (base, accent) colours.
Hex strings are decoded to their RGBA values (alpha 255). -/
def RARITY_COLORS : List (String × (Color × Color)) :=
  [ ("Common", commonPair),
    ("Rare", (⟨0x4a, 0xa3, 0xdf, 0xff⟩, ⟨0x2e, 0x86, 0xde, 0xff⟩)),
    ("Epic", (⟨0xb0, 0x84, 0xf5, 0xff⟩, ⟨0x8e, 0x44, 0xad, 0xff⟩)),
    ("Legendary", (⟨0xf7, 0xd3, 0x6a, 0xff⟩, ⟨0xf1, 0xc4, 0x0f, 0xff⟩)),
    ("Mythic", (⟨0xf3, 0x9c, 0x5a, 0xff⟩, ⟨0xe6, 0x7e, 0x22, 0xff⟩)),
    ("Exotic", (⟨0xf2, 0x6d, 0x6d, 0xff⟩, ⟨0xe7, 0x4c, 0x3c, 0xff⟩)) ]

/-- Lookup `RARITY_COLORS.get(rarity, RARITY_COLORS["Common"])` (line 45):
look the rarity up; an unknown rarity silently falls back to Common. -/
def rarityGet (r : String) : Color × Color :=
  match RARITY_COLORS.find? (fun e => e.1 == r) with
  | some e => e.2
  | none => commonPair

/-- Frame colour `"#1c1f24"` (line 50). -/
def frameColor : Color := ⟨0x1c, 0x1f, 0x24, 0xff⟩

/-- Skin tone `"#f2c9a0"`, chosen when `seed % 2 == 0` (line 68). -/
def skinEven : Color := ⟨0xf2, 0xc9, 0xa0, 0xff⟩

/-- Skin tone `"#e3b58a"`, chosen when `seed % 2 != 0` (line 68). -/
def skinOdd : Color := ⟨0xe3, 0xb5, 0x8a, 0xff⟩

/-- Eye colour `"#2b2b2b"` (line 74). -/
def eyeColor : Color := ⟨0x2b, 0x2b, 0x2b, 0xff⟩

/-- Mouth colour `"#7a4b3a"` (lines 79–80). -/
def mouthColor : Color := ⟨0x7a, 0x4b, 0x3a, 0xff⟩

/-- Pickaxe-handle colour `"#8b5a2b"` (line 83). -/
def handleColor : Color := ⟨0x8b, 0x5a, 0x2b, 0xff⟩

/-- The straight-line body of `draw_icon` (lines 46–95): the fixed
sequence of pixel fills on the 16×16 canvas. The two seed-derived
choices — the skin tone (`seed % 2`, line 68) and whether the accent
stripe is painted (`seed % 3 == 0`, line 93) — enter as the parameters
`skin` and `stripeOn`; they are instantiated in `draw_icon_16` exactly
as in the source. Each loop mirrors the corresponding Python `range`. -/
def draw_body (base accent skin : Color) (stripeOn : Bool) : Img :=
  let img : Img := newImage GRID GRID transparent
  -- Background frame (lines 51–53): for x in range(GRID): rows 0 and GRID-1
  let img := (List.range GRID).foldl
    (fun im x => draw_pixel (draw_pixel im x 0 frameColor) x (GRID - 1) frameColor) img
  -- (lines 54–56): for y in range(GRID): columns 0 and GRID-1
  let img := (List.range GRID).foldl
    (fun im y => draw_pixel (draw_pixel im 0 y frameColor) (GRID - 1) y frameColor) img
  -- Helmet (lines 59–61): for y in range(2, 7): for x in range(3, 13)
  let img := (List.range' 2 5).foldl
    (fun im y => (List.range' 3 10).foldl (fun im2 x => draw_pixel im2 x y base) im) img
  -- Helmet brim (lines 64–65): for x in range(4, 12) at y = 7
  let img := (List.range' 4 8).foldl (fun im x => draw_pixel im x 7 accent) img
  -- Face (lines 69–71): for y in range(8, 12): for x in range(4, 12)
  let img := (List.range' 8 4).foldl
    (fun im y => (List.range' 4 8).foldl (fun im2 x => draw_pixel im2 x y skin) im) img
  -- Eyes (lines 75–76)
  let img := draw_pixel (draw_pixel img 6 9 eyeColor) 9 9 eyeColor
  -- Mouth (lines 79–80)
  let img := draw_pixel (draw_pixel img 7 11 mouthColor) 8 11 mouthColor
  -- Pickaxe handle (lines 84–85): for i in range(5): pixel (10+i, 10+i)
  let img := (List.range 5).foldl (fun im i => draw_pixel im (10 + i) (10 + i) handleColor) img
  -- Pickaxe head (lines 88–90): for x in range(12, 15): rows 9 and 10
  let img := (List.range' 12 3).foldl
    (fun im x => draw_pixel (draw_pixel im x 9 accent) x 10 accent) img
  -- Accent stripe (lines 92–95): if seed % 3 == 0: for x in range(5, 11) at y = 4
  let img := if stripeOn then (List.range' 5 6).foldl (fun im x => draw_pixel im x 4 accent) img
             else img
  img

/-- The 16×16 stage of `draw_icon(rarity, seed)` (lines 44–95): resolve
the palette (with Common fallback), pick the skin tone by `seed % 2`,
decide the stripe by `seed % 3 == 0`, and paint. -/
def draw_icon_16 (rarity : String) (seed : Nat) : Img :=
  draw_body (rarityGet rarity).1 (rarityGet rarity).2
    (if seed % 2 = 0 then skinEven else skinOdd) (decide (seed % 3 = 0))

/-- Modelled from the spec: PIL's `Image.resize((dstW, dstH),
Image.Resampling.NEAREST)` (line 97) is third-party library code, not
part of this repository. Nearest-neighbour resampling: each destination
pixel takes the colour of the source pixel nearest the destination
pixel's centre mapped into source coordinates, i.e. source column
`⌊(2X+1)·srcW / (2·dstW)⌋` — no interpolation, no anti-aliasing. -/
def resizeNearest (img : Img) (srcW srcH dstW dstH : Nat) : Img :=
  (List.range dstH).map fun Y =>
    (List.range dstW).map fun X =>
      getPixel img ((2 * X + 1) * srcW / (2 * dstW)) ((2 * Y + 1) * srcH / (2 * dstH))

/-- Function `draw_icon(rarity, seed)` (lines 44–97): the painted 16×16 canvas,
returned upscaled to `(GRID*SCALE, GRID*SCALE)` with nearest resampling. -/
def draw_icon (rarity : String) (seed : Nat) : Img :=
  resizeNearest (draw_icon_16 rarity seed) GRID GRID (GRID * SCALE) (GRID * SCALE)

/-! ## Parser: `parse_miners` (lines 26–37)

The pattern `tier:\s*(\d+),\s*name:\s*'([^']+)'[\s\S]*?rarity:\s*'([^']+)'`
is deterministic at every choice point (whitespace, digit and non-quote
character classes are disjoint from the literals that follow them), so
`re.finditer` is embedded directly as a left-to-right scanner: at each
position, try to match the tier/name part; on success, the lazy
`[\s\S]*?` gap takes the first later position where the rarity part
matches; on failure, advance one character.  Matches are non-overlapping:
scanning resumes after the end of each match. -/

/-- One parsed record `{"tier": …, "name": …, "rarity": …}` (line 35). -/
structure MinerRecord where
  tier : Nat
  name : String
  rarity : String
deriving DecidableEq, Repr

/-- The single-quote character `'` (`Char.ofNat 39`). -/
def quoteChar : Char := Char.ofNat 39

/-- Python's `\s` character class (ASCII): space, `\t`, `\n`, `\r`,
vertical tab (11) and form feed (12). -/
def isSpaceChar (c : Char) : Bool :=
  c == ' ' || c == '\t' || c == '\n' || c == '\r' || c == Char.ofNat 11 || c == Char.ofNat 12

/-- Python's `\d` character class (ASCII digits). -/
def isDigitChar (c : Char) : Bool :=
  '0' ≤ c && c ≤ '9'

/-- Value `int(...)` of a digit string (group 1 is `\d+`, so decimal, unsigned). -/
def digitsToNat (ds : List Char) : Nat :=
  ds.foldl (fun n c => 10 * n + (c.toNat - 48)) 0

/-- Match a literal string at the head of the input, returning the rest. -/
def matchLit : List Char → List Char → Option (List Char)
  | [], cs => some cs
  | _, [] => none
  | l :: ls, c :: cs => if c = l then matchLit ls cs else none

/-- Match `tier:\s*(\d+),\s*name:\s*'([^']+)'` at the head of the input:
on success, the tier value, the name, and the rest of the input. -/
def matchTierName (cs : List Char) : Option (Nat × String × List Char) :=
  match matchLit "tier:".data cs with
  | none => none
  | some cs1 =>
    let cs2 := cs1.dropWhile isSpaceChar
    let ds := cs2.takeWhile isDigitChar
    if ds.isEmpty then none else
    match cs2.dropWhile isDigitChar with
    | c3 :: cs4 =>
      if c3 ≠ ',' then none else
      match matchLit "name:".data (cs4.dropWhile isSpaceChar) with
      | none => none
      | some cs6 =>
        match cs6.dropWhile isSpaceChar with
        | c7 :: cs8 =>
          if c7 ≠ quoteChar then none else
          let nm := cs8.takeWhile (fun c => c ≠ quoteChar)
          if nm.isEmpty then none else
          match cs8.dropWhile (fun c => c ≠ quoteChar) with
          | c9 :: cs10 => if c9 = quoteChar then some (digitsToNat ds, String.mk nm, cs10) else none
          | [] => none
        | [] => none
    | [] => none

/-- Match `rarity:\s*'([^']+)'` at the head of the input. -/
def matchRarity (cs : List Char) : Option (String × List Char) :=
  match matchLit "rarity:".data cs with
  | none => none
  | some cs1 =>
    match cs1.dropWhile isSpaceChar with
    | c2 :: cs3 =>
      if c2 ≠ quoteChar then none else
      let rv := cs3.takeWhile (fun c => c ≠ quoteChar)
      if rv.isEmpty then none else
      match cs3.dropWhile (fun c => c ≠ quoteChar) with
      | c4 :: cs5 => if c4 = quoteChar then some (String.mk rv, cs5) else none
      | [] => none
    | [] => none

/-- The lazy gap `[\s\S]*?` before the rarity part: the first (leftmost)
position at or after the current one where `matchRarity` succeeds. -/
def findRarity : List Char → Option (String × List Char)
  | [] => none
  | c :: cs =>
    match matchRarity (c :: cs) with
    | some r => some r
    | none => findRarity cs

/-- Attempt the whole pattern at the head of the input: all three fields
are required — without a following rarity there is no match. -/
def tryMatch (cs : List Char) : Option (MinerRecord × List Char) :=
  match matchTierName cs with
  | none => none
  | some (t, n, rest) =>
    match findRarity rest with
    | none => none
    | some (r, rest2) => some (⟨t, n, r⟩, rest2)

/-- Scan `pattern.finditer(content)` (line 33): left-to-right scan emitting
non-overlapping matches in textual encounter order.  The fuel (always
instantiated with the input length, which the scan never exhausts since
every match consumes at least one character) makes the recursion
structural. -/
def scanAux : Nat → List Char → List MinerRecord
  | 0, _ => []
  | _ + 1, [] => []
  | fuel + 1, c :: cs =>
    match tryMatch (c :: cs) with
    | some (m, rest) => m :: scanAux fuel rest
    | none => scanAux fuel cs

/-- The list of matches of the pattern over the whole input text, in
textual encounter order (the `miners` list right before line 37). -/
def scanMiners (content : String) : List MinerRecord :=
  scanAux content.data.length content.data

/-- Ordered insert on the tier key: `m` is placed before the first
element `x` with `m.tier ≤ x.tier`.  In `sortByTier`, `m` is always
inserted into the sorted tail built from elements that came after it in
the input, so among equal tiers earlier input elements stay first: the
sort is stable, as Python's `sorted` is. -/
def insertByTier (m : MinerRecord) : List MinerRecord → List MinerRecord
  | [] => [m]
  | x :: xs => if m.tier ≤ x.tier then m :: x :: xs else x :: insertByTier m xs

/-- Sort `sorted(miners, key=lambda m: m["tier"])` (line 37): a stable
ascending sort on the tier key. -/
def sortByTier : List MinerRecord → List MinerRecord
  | [] => []
  | x :: xs => insertByTier x (sortByTier xs)

/-- Function `parse_miners(path)` (lines 26–37), with the file read abstracted to
the file's text content: all pattern matches, sorted ascending by tier. -/
def parse_miners (content : String) : List MinerRecord :=
  sortByTier (scanMiners content)

/-! ## Orchestration: `main` (lines 100–119) -/

/-- The manifest record (lines 112–116). -/
structure Manifest where
  size : Nat
  count : Nat
  path : String
deriving DecidableEq, Repr

/-- A file-write performed by `main`, in program order: one icon write
per record (line 109), then the manifest write (line 117). -/
inductive Event where
  | writeIcon (filename : String) (img : Img)
  | writeManifest (m : Manifest)
deriving DecidableEq

/-- Format `f"tier-{tier}.png"` (line 108). -/
def iconFileName (tier : Nat) : String :=
  "tier-" ++ Nat.repr tier ++ ".png"

/-- Count the manifest writes in a trace. -/
def manifestCount (evts : List Event) : Nat :=
  (evts.filter fun e => match e with | .writeManifest _ => true | _ => false).length

/-- Function `main()` (lines 100–119) as its sequence of file writes, with the
input file abstracted to its text content and the output directory
dropped from the file names: for each parsed record, in order, write
`tier-<tier>.png` rendered by `draw_icon(rarity, tier)`; after all icon
writes, write the manifest `{size: GRID*SCALE, count: len(miners),
path: "assets/ui/miners"}`.  A run that aborts at the `k`-th write
realises only a prefix of this trace. -/
def runEvents (content : String) : List Event :=
  let miners := parse_miners content
  miners.map (fun m => Event.writeIcon (iconFileName m.tier) (draw_icon m.rarity m.tier))
    ++ [Event.writeManifest ⟨GRID * SCALE, miners.length, "assets/ui/miners"⟩]

/-! ## Sample inputs used in the concrete parts of the claims -/

/-- An input containing well-formed records with tiers 5, 1, 3 in that
textual order. -/
def tierSample : String :=
  "tier: 5, name: \x27Quarry\x27, rarity: \x27Epic\x27,\ntier: 1, name: \x27Pebble\x27, rarity: \x27Common\x27,\ntier: 3, name: \x27Drill\x27, rarity: \x27Rare\x27,\n"

/-- An input with exactly the two well-formed records
`(tier 1, name "A", rarity "Common")` and `(tier 7, name "B", rarity
"Mythic")`. -/
def twoMinerInput : String :=
  "tier: 1, name: \x27A\x27, rarity: \x27Common\x27,\ntier: 7, name: \x27B\x27, rarity: \x27Mythic\x27,\n"

/-- Input `twoMinerInput` with both names changed and nothing else. -/
def renamedInput : String :=
  "tier: 1, name: \x27Alpha\x27, rarity: \x27Common\x27,\ntier: 7, name: \x27Beta\x27, rarity: \x27Mythic\x27,\n"

/-- A well-formed record followed by a block with tier and name but no
rarity anywhere after it. -/
def malformedSample : String :=
  "tier: 2, name: \x27Good\x27, rarity: \x27Rare\x27,\ntier: 9, name: \x27Bad\x27\n"

/-- The malformed block of `malformedSample`, as the scanner reaches it. -/
def malformedTail : String :=
  "tier: 9, name: \x27Bad\x27\n"

/-! ## Helper lemmas: the stable sort -/

/-- The tier order used by `sortByTier`. -/
def tierLE (a b : MinerRecord) : Prop := a.tier ≤ b.tier

theorem mem_insertByTier (y m : MinerRecord) (l : List MinerRecord) :
    y ∈ insertByTier m l ↔ y = m ∨ y ∈ l := by
  induction l with
  | nil => simp [insertByTier]
  | cons x xs ih =>
    by_cases h : m.tier ≤ x.tier
    · simp [insertByTier, h]
    · simp only [insertByTier, if_neg h, List.mem_cons, ih]
      tauto

theorem sorted_insertByTier (m : MinerRecord) (l : List MinerRecord)
    (h : List.Sorted tierLE l) : List.Sorted tierLE (insertByTier m l) := by
  induction l with
  | nil => simp [insertByTier, tierLE]
  | cons x xs ih =>
    rw [List.sorted_cons] at h
    by_cases hm : m.tier ≤ x.tier
    · simp only [insertByTier, if_pos hm]
      refine List.sorted_cons.mpr ⟨?_, List.sorted_cons.mpr h⟩
      intro b hb
      rcases List.mem_cons.mp hb with rfl | hb
      · exact hm
      · exact le_trans hm (h.1 b hb)
    · simp only [insertByTier, if_neg hm]
      refine List.sorted_cons.mpr ⟨?_, ih h.2⟩
      intro b hb
      rcases (mem_insertByTier b m xs).mp hb with rfl | hb
      · show x.tier ≤ b.tier
        omega
      · exact h.1 b hb

theorem sorted_sortByTier (l : List MinerRecord) :
    List.Sorted tierLE (sortByTier l) := by
  induction l with
  | nil => simp [sortByTier]
  | cons x xs ih => exact sorted_insertByTier x _ ih

theorem filter_insertByTier_pos (m : MinerRecord) (l : List MinerRecord) (t : Nat)
    (h : m.tier = t) :
    (insertByTier m l).filter (fun x => x.tier == t)
      = m :: l.filter (fun x => x.tier == t) := by
  induction l with
  | nil => simp [insertByTier, h]
  | cons x xs ih =>
    by_cases hm : m.tier ≤ x.tier
    · simp only [insertByTier, if_pos hm]
      simp [List.filter_cons, h]
    · have hx : (x.tier == t) = false := by
        simp only [beq_eq_false_iff_ne, ne_eq]
        omega
      simp only [insertByTier, if_neg hm]
      simp [List.filter_cons, hx, ih]

theorem filter_insertByTier_neg (m : MinerRecord) (l : List MinerRecord) (t : Nat)
    (h : m.tier ≠ t) :
    (insertByTier m l).filter (fun x => x.tier == t)
      = l.filter (fun x => x.tier == t) := by
  induction l with
  | nil => simp [insertByTier, h]
  | cons x xs ih =>
    by_cases hm : m.tier ≤ x.tier
    · simp only [insertByTier, if_pos hm]
      simp [List.filter_cons, h]
    · simp only [insertByTier, if_neg hm]
      simp [List.filter_cons, ih]

theorem filter_sortByTier (l : List MinerRecord) (t : Nat) :
    (sortByTier l).filter (fun x => x.tier == t)
      = l.filter (fun x => x.tier == t) := by
  induction l with
  | nil => rfl
  | cons x xs ih =>
    by_cases h : x.tier = t
    · rw [sortByTier, filter_insertByTier_pos x _ t h, ih]
      simp [List.filter_cons, h]
    · rw [sortByTier, filter_insertByTier_neg x _ t h, ih]
      simp [List.filter_cons, h]

/-! ## Helper lemmas: palette resolution -/

theorem rarityGet_mem (r : String) :
    rarityGet r ∈ RARITY_COLORS.map (fun e => e.2) := by
  unfold rarityGet
  cases h : RARITY_COLORS.find? (fun e => e.1 == r) with
  | none => decide
  | some e => exact List.mem_map_of_mem _ (List.mem_of_find?_eq_some h)

theorem rarityGet_of_unknown (r : String)
    (h : r ∉ RARITY_COLORS.map (fun e => e.1)) : rarityGet r = commonPair := by
  have hf : RARITY_COLORS.find? (fun e => e.1 == r) = none := by
    rw [List.find?_eq_none]
    intro e he heq
    rw [beq_iff_eq] at heq
    exact h (heq ▸ List.mem_map_of_mem _ he)
  rw [rarityGet, hf]

theorem rarityGet_common : rarityGet "Common" = commonPair := by decide

/-- The skin tone selected for a seed is one of the two fixed tones. -/
theorem skinSel_mem (s : Nat) :
    (if s % 2 = 0 then skinEven else skinOdd) ∈ [skinEven, skinOdd] := by
  by_cases h : s % 2 = 0 <;> simp [h]

/-! ## Helper lemmas: the upscale and the icon geometry -/

theorem getPixel_resizeNearest (img : Img) (sw sh dw dh X Y : Nat)
    (hX : X < dw) (hY : Y < dh) :
    getPixel (resizeNearest img sw sh dw dh) X Y =
      getPixel img ((2 * X + 1) * sw / (2 * dw)) ((2 * Y + 1) * sh / (2 * dh)) := by
  unfold resizeNearest getPixel
  simp [List.getD_eq_getElem?_getD, List.getElem?_map, List.getElem?_range, hX, hY]

/-- An image is an `n × n` square. -/
def isSquare (img : Img) (n : Nat) : Prop :=
  img.length = n ∧ ∀ row ∈ img, row.length = n

theorem resizeNearest_square (img : Img) (sw sh n : Nat) :
    isSquare (resizeNearest img sw sh n n) n := by
  constructor
  · simp [resizeNearest]
  · intro row hrow
    simp only [resizeNearest, List.mem_map] at hrow
    obtain ⟨Y, _, rfl⟩ := hrow
    simp

/-- The face rectangle painted at lines 69–71: `4 ≤ x < 12`, `8 ≤ y < 12`. -/
def faceRect (x y : Nat) : Prop := 4 ≤ x ∧ x < 12 ∧ 8 ≤ y ∧ y < 12

instance (x y : Nat) : Decidable (faceRect x y) :=
  inferInstanceAs (Decidable (4 ≤ x ∧ x < 12 ∧ 8 ≤ y ∧ y < 12))

/-- The face-rectangle pixels later overdrawn by the eyes (lines 75–76),
the mouth (lines 79–80) and the pickaxe handle (lines 84–85). -/
def faceOverdrawn : List (Nat × Nat) :=
  [(6, 9), (9, 9), (7, 11), (8, 11), (10, 10), (11, 11)]

/-- The face-rectangle pixels still showing the skin tone in the final
bitmap: the rectangle of lines 69–71 minus `faceOverdrawn`. -/
def visibleFacePixels : List (Nat × Nat) :=
  ((List.range' 8 4).flatMap fun y => (List.range' 4 8).map fun x => (x, y)).filter
    fun q => decide (q ∉ faceOverdrawn)

set_option maxRecDepth 40000 in
/-- On every palette, with either skin tone and with or without the
stripe, every non-overdrawn face pixel of the painted canvas shows the
chosen skin tone. -/
theorem face_skin_key :
    ∀ p ∈ RARITY_COLORS.map (fun e => e.2), ∀ sk ∈ [skinEven, skinOdd], ∀ st : Bool,
      ∀ q ∈ visibleFacePixels, getPixel (draw_body p.1 p.2 sk st) q.1 q.2 = sk := by
  decide

set_option maxRecDepth 40000 in
/-- Outside the face rectangle, the painted canvas does not depend on
the chosen skin tone. -/
theorem nonface_key :
    ∀ p ∈ RARITY_COLORS.map (fun e => e.2), ∀ st : Bool, ∀ x y : Fin 16,
      ¬ faceRect x y →
        getPixel (draw_body p.1 p.2 skinEven st) x y
          = getPixel (draw_body p.1 p.2 skinOdd st) x y := by
  decide

/-- The accent stripe of lines 92–95 is present: every pixel of the
stripe row `y = 4`, `5 ≤ x < 11` has the accent colour. -/
def stripeRowCheck (img : Img) (c : Color) : Bool :=
  (List.range' 5 6).all fun x => getPixel img x 4 == c

set_option maxRecDepth 40000 in
/-- On every palette and either skin tone, the stripe row is all-accent
exactly when the stripe was painted (otherwise those pixels show the
base colour, which differs from the accent on every palette). -/
theorem stripe_key :
    ∀ p ∈ RARITY_COLORS.map (fun e => e.2), ∀ sk ∈ [skinEven, skinOdd],
      stripeRowCheck (draw_body p.1 p.2 sk true) p.2 = true
      ∧ stripeRowCheck (draw_body p.1 p.2 sk false) p.2 = false := by
  decide

/-! ## The claims -/

set_option maxRecDepth 40000 in
/-- C1: for every input text, `parse_miners` returns the matched records
sorted ascending by tier, and the ordering among records with equal
tiers is stable — for every tier value, the subsequence of records with
that tier is exactly the subsequence of the raw matches (which are in
textual encounter order).  In particular, an input containing records
with tiers `[5, 1, 3]` in that textual order parses to the tier sequence
`[1, 3, 5]`. -/
theorem C1_sorted_stable :
    (∀ content : String, List.Sorted tierLE (parse_miners content))
    ∧ (∀ content : String, ∀ t : Nat,
        (parse_miners content).filter (fun m => m.tier == t)
          = (scanMiners content).filter (fun m => m.tier == t))
    ∧ (scanMiners tierSample).map (fun m => m.tier) = [5, 1, 3]
    ∧ (parse_miners tierSample).map (fun m => m.tier) = [1, 3, 5] :=
  ⟨fun _ => sorted_sortByTier _, fun _ t => filter_sortByTier _ t, by decide, by decide⟩

/-- C2: rendering with a rarity label that is not one of the six known
rarities produces a bitmap pixel-identical to rendering with rarity
"Common" for the same seed. -/
theorem C2_unknown_rarity (r : String) (s : Nat)
    (h : r ∉ RARITY_COLORS.map (fun e => e.1)) :
    draw_icon r s = draw_icon "Common" s := by
  rw [draw_icon, draw_icon, draw_icon_16, draw_icon_16,
    rarityGet_of_unknown r h, rarityGet_common]

/-- Witness for C2 at the claim's own instance: "Nonexistent" is not a
known rarity, and its icon equals Common's. -/
theorem C2_witness :
    "Nonexistent" ∉ RARITY_COLORS.map (fun e => e.1)
    ∧ draw_icon "Nonexistent" 5 = draw_icon "Common" 5 :=
  ⟨by decide, C2_unknown_rarity "Nonexistent" 5 (by decide)⟩

/-- C3: for every rarity and seed, the rendered 16×16 bitmap contains the
horizontal accent stripe (accent-coloured pixels across the fixed stripe
row `y = 4`, `5 ≤ x < 11`) exactly when the seed is divisible by 3; in
particular it does for seeds 0, 3, 6 and does not for 1, 2, 4, 5. -/
theorem C3_stripe_iff (r : String) (s : Nat) :
    stripeRowCheck (draw_icon_16 r s) (rarityGet r).2 = true ↔ s % 3 = 0 := by
  have key := stripe_key _ (rarityGet_mem r) _ (skinSel_mem s)
  rw [draw_icon_16]
  by_cases h3 : s % 3 = 0
  · rw [decide_eq_true h3]
    exact iff_of_true key.1 h3
  · rw [decide_eq_false h3, key.2]
    exact iff_of_false (by simp) h3

/-- C4: for every rarity and every even seed `s₁` and odd seed `s₂`, the
visible face pixels of the two 16×16 bitmaps show the two distinct skin
tones selected by `seed % 2`; and whenever the `mod 3` stripe condition
does not differ between the two seeds, every pixel outside the face
rectangle is identical between the two bitmaps. -/
theorem C4_parity_face (r : String) (s₁ s₂ : Nat)
    (h₁ : s₁ % 2 = 0) (h₂ : s₂ % 2 = 1) :
    skinEven ≠ skinOdd
    ∧ (∀ q ∈ visibleFacePixels,
        getPixel (draw_icon_16 r s₁) q.1 q.2 = skinEven
        ∧ getPixel (draw_icon_16 r s₂) q.1 q.2 = skinOdd)
    ∧ ((s₁ % 3 = 0 ↔ s₂ % 3 = 0) →
        ∀ x y : Nat, x < GRID → y < GRID → ¬ faceRect x y →
          getPixel (draw_icon_16 r s₁) x y = getPixel (draw_icon_16 r s₂) x y) := by
  have hp := rarityGet_mem r
  have e₁ : draw_icon_16 r s₁
      = draw_body (rarityGet r).1 (rarityGet r).2 skinEven (decide (s₁ % 3 = 0)) := by
    rw [draw_icon_16, if_pos h₁]
  have e₂ : draw_icon_16 r s₂
      = draw_body (rarityGet r).1 (rarityGet r).2 skinOdd (decide (s₂ % 3 = 0)) := by
    rw [draw_icon_16, if_neg (by omega)]
  refine ⟨by decide, ?_, ?_⟩
  · intro q hq
    rw [e₁, e₂]
    exact ⟨face_skin_key _ hp skinEven (by simp) _ q hq,
      face_skin_key _ hp skinOdd (by simp) _ q hq⟩
  · intro hiff x y hx hy hf
    rw [e₁, e₂, decide_eq_decide.mpr hiff]
    exact nonface_key _ hp _ ⟨x, hx⟩ ⟨y, hy⟩ hf

/-- Witness for C4 at seeds 2 (even) and 5 (odd), whose stripe conditions
agree (both off): face pixel (4, 8) shows the two tones, and the frame
pixel (0, 0), outside the face, is identical. -/
theorem C4_witness :
    2 % 2 = 0 ∧ 5 % 2 = 1
    ∧ getPixel (draw_icon_16 "Rare" 2) 4 8 = skinEven
    ∧ getPixel (draw_icon_16 "Rare" 5) 4 8 = skinOdd
    ∧ getPixel (draw_icon_16 "Rare" 2) 0 0 = getPixel (draw_icon_16 "Rare" 5) 0 0 :=
  ⟨rfl, rfl,
    ((C4_parity_face "Rare" 2 5 rfl rfl).2.1 (4, 8) (by decide)).1,
    ((C4_parity_face "Rare" 2 5 rfl rfl).2.1 (4, 8) (by decide)).2,
    (C4_parity_face "Rare" 2 5 rfl rfl).2.2 (by omega) 0 0 (by decide) (by decide)
      (by decide)⟩

/-- C5: for every rarity and seed the final image is 128×128, and every
pixel `(x, y)` of the 16×16 bitmap becomes the 8×8 block of destination
pixels `(8x … 8x+7, 8y … 8y+7)`, all with that source pixel's exact
colour. -/
theorem C5_upscale (r : String) (s : Nat) :
    isSquare (draw_icon r s) (GRID * SCALE)
    ∧ ∀ x y dx dy : Nat, x < GRID → y < GRID → dx < SCALE → dy < SCALE →
        getPixel (draw_icon r s) (SCALE * x + dx) (SCALE * y + dy)
          = getPixel (draw_icon_16 r s) x y := by
  refine ⟨resizeNearest_square _ _ _ _, ?_⟩
  intro x y dx dy hx hy hdx hdy
  simp only [GRID, SCALE] at hx hy hdx hdy
  rw [draw_icon]
  rw [getPixel_resizeNearest (draw_icon_16 r s) GRID GRID (GRID * SCALE) (GRID * SCALE)
    (SCALE * x + dx) (SCALE * y + dy)
    (by simp only [GRID, SCALE]; omega) (by simp only [GRID, SCALE]; omega)]
  have ex : (2 * (SCALE * x + dx) + 1) * GRID / (2 * (GRID * SCALE)) = x := by
    simp only [GRID, SCALE]
    omega
  have ey : (2 * (SCALE * y + dy) + 1) * GRID / (2 * (GRID * SCALE)) = y := by
    simp only [GRID, SCALE]
    omega
  rw [ex, ey]

/-- Witness for C5: a block-interior destination pixel of the Common
tier-9 icon equals its 16×16 source pixel. -/
theorem C5_witness :
    2 < GRID ∧ 3 < GRID ∧ 5 < SCALE ∧ 4 < SCALE
    ∧ getPixel (draw_icon "Common" 9) (SCALE * 2 + 5) (SCALE * 3 + 4)
        = getPixel (draw_icon_16 "Common" 9) 2 3 :=
  ⟨by decide, by decide, by decide, by decide,
    (C5_upscale "Common" 9).2 2 3 5 4 (by decide) (by decide) (by decide) (by decide)⟩

/-- C6: on the two-record input, the run writes exactly the two icons
`tier-1.png` and `tier-7.png` (in that order), each 128×128, and then a
manifest with `size = 128`, `count = 2`; the manifest write is the last
event, so a run aborting during an icon write (realising only a prefix
with at most the two icon writes) has written no manifest. -/
theorem C6_end_to_end :
    runEvents twoMinerInput =
        [Event.writeIcon "tier-1.png" (draw_icon "Common" 1),
         Event.writeIcon "tier-7.png" (draw_icon "Mythic" 7),
         Event.writeManifest ⟨128, 2, "assets/ui/miners"⟩]
    ∧ isSquare (draw_icon "Common" 1) 128
    ∧ isSquare (draw_icon "Mythic" 7) 128
    ∧ (∀ k : Nat, k ≤ 2 → manifestCount ((runEvents twoMinerInput).take k) = 0) := by
  have htr : runEvents twoMinerInput =
      [Event.writeIcon "tier-1.png" (draw_icon "Common" 1),
       Event.writeIcon "tier-7.png" (draw_icon "Mythic" 7),
       Event.writeManifest ⟨128, 2, "assets/ui/miners"⟩] := rfl
  refine ⟨htr, resizeNearest_square _ _ _ _, resizeNearest_square _ _ _ _, ?_⟩
  intro k hk
  rw [htr]
  interval_cases k <;> rfl

/-- Witness for C6: the longest failing prefix (both icons written, the
run dying before the manifest write) contains no manifest. -/
theorem C6_witness : manifestCount ((runEvents twoMinerInput).take 2) = 0 :=
  C6_end_to_end.2.2.2 2 (by decide)

/-- C7: a match requires all three fields — whenever the tier/name part
matches at a position but no rarity field occurs anywhere after it, the
pattern yields no match at that position; concretely, scanning an input
whose final block has tier and name but no following rarity yields only
the other record. -/
theorem C7_rarity_required :
    (∀ (cs rest : List Char) (t : Nat) (n : String),
        matchTierName cs = some (t, n, rest) → findRarity rest = none →
        tryMatch cs = none)
    ∧ (scanMiners malformedSample).map (fun m => (m.tier, m.name, m.rarity))
        = [(2, "Good", "Rare")] := by
  constructor
  · intro cs rest t n h1 h2
    simp only [tryMatch, h1, h2]
  · decide

/-- Witness for C7: the malformed block itself — tier 9, name "Bad",
nothing but a newline after — matches the tier/name part, has no
following rarity, and produces no match. -/
theorem C7_witness :
    matchTierName malformedTail.data = some (9, "Bad", "\n".data)
    ∧ findRarity "\n".data = none
    ∧ tryMatch malformedTail.data = none :=
  ⟨by decide, by decide,
    C7_rarity_required.1 malformedTail.data "\n".data 9 "Bad" (by decide) (by decide)⟩

/-- C8: for every input text in which no blocks match, `parse_miners`
returns the empty sequence (it is a total function), and the run writes
zero image files and just a manifest with `count = 0`, `size = 128`. -/
theorem C8_empty_input (content : String) (h : scanMiners content = []) :
    parse_miners content = []
    ∧ runEvents content = [Event.writeManifest ⟨GRID * SCALE, 0, "assets/ui/miners"⟩] := by
  have hp : parse_miners content = [] := by rw [parse_miners, h]; rfl
  refine ⟨hp, ?_⟩
  simp only [runEvents, hp]
  rfl

/-- Witness for C8 on a concrete matchless input. -/
theorem C8_witness :
    scanMiners "no miners here" = []
    ∧ runEvents "no miners here" = [Event.writeManifest ⟨GRID * SCALE, 0, "assets/ui/miners"⟩] :=
  ⟨by decide, (C8_empty_input "no miners here" (by decide)).2⟩

/-- C9: icon rendering depends on the seed only through its residue
modulo 6 — the icon for seed `s` is pixel-identical to the icon for
`s + 6`, since the only seed-dependent choices are the `mod 2` skin tone
and the `mod 3` stripe. -/
theorem C9_seed_mod6 (r : String) (s : Nat) :
    draw_icon r s = draw_icon r (s + 6) := by
  have h2 : (s + 6) % 2 = s % 2 := by omega
  have h3 : (s + 6) % 3 = s % 3 := by omega
  rw [draw_icon, draw_icon, draw_icon_16, draw_icon_16, h2, h3]

/-- The projection of a record that forgets its name. -/
def eraseName (m : MinerRecord) : Nat × String := (m.tier, m.rarity)

/-- C10: the parsed name field never influences any output — two input
texts whose parses agree up to the name strings produce the same event
trace: identical icon bitmaps, identical file names, identical manifest. -/
theorem C10_names_no_influence (c₁ c₂ : String)
    (h : (parse_miners c₁).map eraseName = (parse_miners c₂).map eraseName) :
    runEvents c₁ = runEvents c₂ := by
  have key : ∀ c : String, runEvents c
      = (((parse_miners c).map eraseName).map
          (fun q => Event.writeIcon (iconFileName q.1) (draw_icon q.2 q.1)))
        ++ [Event.writeManifest
              ⟨GRID * SCALE, ((parse_miners c).map eraseName).length, "assets/ui/miners"⟩] := by
    intro c
    simp only [runEvents, List.map_map, List.length_map]
    rfl
  rw [key, key, h]

/-- Witness for C10: two concrete inputs differing only in the two name
strings yield identical event traces. -/
theorem C10_witness :
    (parse_miners twoMinerInput).map eraseName = (parse_miners renamedInput).map eraseName
    ∧ runEvents twoMinerInput = runEvents renamedInput :=
  ⟨by decide, C10_names_no_influence twoMinerInput renamedInput (by decide)⟩
